import Mathlib

/-!
# GraphEngine.Jit.Native: signature inference and code generation dispatch

A shallow embedding of `GraphEngine.Jit.Native.cpp`: the scalar type map
(`s_atom_typemap`, `_get_typeid`), member lookup (`_find_member`), the two
signature walks (`_get_retid`, `_get_args`), the generator table (`s_jitprocs`,
`Dispatch`, `BGet` .. `LCount`) and the driver (`CompileFunctionToNative`).

The asmjit backend is a black box: the embedding records the calls made to it,
in order, in a log (`X86Compiler.log`), and takes its answers (error codes, the
address of the finished function) from a `Backend` value.
-/

namespace GraphEngine.Jit

/-! ## Data model -/

/-- Modelled from the spec: the `TypeCode` enumeration is declared in `TypeSystem.h`,
which is not among the sources. The twelve codes are the keys of `s_atom_typemap`;
`TC_OTHER` stands for every other code of the enumeration (strings, structs, lists, ...). -/
inductive TypeCode where
  | TC_U8 | TC_U16 | TC_U32 | TC_U64
  | TC_I8 | TC_I16 | TC_I32 | TC_I64
  | TC_F32 | TC_F64
  | TC_BOOL | TC_CHAR
  | TC_OTHER (tag : Nat)
  deriving DecidableEq, Repr

/-- Modelled from the spec: the scalar categories of asmjit (`TypeId::Id`, from `asmjit.h`,
not among the sources) that the program names. -/
inductive TypeId where
  | kVoid
  | kI8 | kU8 | kI16 | kU16 | kI32 | kU32 | kI64 | kU64
  | kUIntPtr
  | kF32 | kF64
  deriving DecidableEq, Repr

/-- Modelled from the spec: the `VerbCode` enumeration (`TypeSystem.h`, not among the
sources); its twelve codes are the keys of `s_jitprocs`. -/
inductive VerbCode where
  | VC_BGet | VC_BSet
  | VC_SGet | VC_SSet
  | VC_GSGet | VC_GSSet
  | VC_LGet | VC_LSet
  | VC_LInlineGet | VC_LInlineSet
  | VC_LContains | VC_LCount
  deriving DecidableEq, Repr

mutual
/-- Modelled from the spec: `TypeDescriptor` (`TypeSystem.h`, not among the sources), with
the three queries the program makes: `get_TypeCode`, `get_Members`, `get_ElementType`. -/
inductive TypeDescriptor where
  | mk (TypeCode : TypeCode) (Members : List MemberDescriptor)
      (ElementType : List TypeDescriptor)
/-- Modelled from the spec: `MemberDescriptor` (`TypeSystem.h`, not among the sources): the
program reads `Name` and `Type`; the spec lists a member as (name, type, byte offset). -/
inductive MemberDescriptor where
  | mk (Name : String) (Type_ : TypeDescriptor) (Offset : Nat)
end

/-- The query `type->get_TypeCode()`. -/
def TypeDescriptor.get_TypeCode : TypeDescriptor → TypeCode
  | .mk c _ _ => c

/-- The query `type->get_Members()`. -/
def TypeDescriptor.get_Members : TypeDescriptor → List MemberDescriptor
  | .mk _ ms _ => ms

/-- The query `type->get_ElementType()`. -/
def TypeDescriptor.get_ElementType : TypeDescriptor → List TypeDescriptor
  | .mk _ _ es => es

/-- The field `m->Name`. -/
def MemberDescriptor.Name : MemberDescriptor → String
  | .mk n _ _ => n

/-- The field `m->Type`. -/
def MemberDescriptor.Type_ : MemberDescriptor → TypeDescriptor
  | .mk _ t _ => t

/-- The byte offset of the member in its record. -/
def MemberDescriptor.Offset : MemberDescriptor → Nat
  | .mk _ _ k => k

/-- Modelled from the spec: `Verb` (`TypeSystem.h`, not among the sources). The program reads
`v->Code`, `v->Data.MemberName` and `v->Data.GenericTypeArgument`; both payload reads are
kept as fields, so that a read of either is defined for every verb. -/
structure Verb where
  Code : VerbCode
  MemberName : String
  GenericTypeArgument : TypeDescriptor

/-- Modelled from the spec: `FunctionDescriptor` (`TypeSystem.h`, not among the sources): the
root type and the verb chain (`Verbs`, `NrVerbs`). -/
structure FunctionDescriptor where
  Type_ : TypeDescriptor
  Verbs : List Verb

/-- How a call can fail. `bare_throw` is the statement `throw;`, `out_of_range` is
`std::vector::at` on an index that is not there; the other three are reads the C++ leaves
undefined, which the embedding makes explicit failures: `member_absent` is a read through
the stray pointer that `_find_member` returns for a name that is not among the members,
`verb_out_of_bounds` a read of a verb past the chain, `uninitialized_ret` the read of the
local `ret` before it is assigned; `null_proc` is a call through an entry that `s_jitprocs`
does not hold. -/
inductive JitError where
  | bare_throw
  | out_of_range
  | member_absent
  | verb_out_of_bounds
  | uninitialized_ret
  | null_proc
  deriving DecidableEq, Repr

/-! ## Scalar type mapping -/

/-- The table `s_atom_typemap`. -/
def s_atom_typemap : List (TypeCode × TypeId) :=
  [ (.TC_U8, .kU8), (.TC_U16, .kU16), (.TC_U32, .kU32), (.TC_U64, .kU64),
    (.TC_I8, .kI8), (.TC_I16, .kI16), (.TC_I32, .kI32), (.TC_I64, .kI64),
    (.TC_F32, .kF32), (.TC_F64, .kF64),
    (.TC_BOOL, .kU8),
    (.TC_CHAR, .kU16) ]

/-- Function `_get_typeid`: look the type code up in `s_atom_typemap`, pointer-sized when absent. -/
def _get_typeid (type : TypeDescriptor) : TypeId :=
  let c := type.get_TypeCode
  match s_atom_typemap.lookup c with
  | some i => i
  | none => .kUIntPtr

/-- Function `_find_member`: the pointer to the first member whose name equals `name`. The
source returns `*i` without comparing the iterator `find_if` gives with `end()`: for a name
that is not among the members it returns the pointer read past the last member, a stray
pointer that points at no member. That stray pointer is the value `none`: the function
itself does not fail, a caller that only passes the pointer on goes on, and a caller that
reads through it fails (`member_absent`). -/
def _find_member (type : TypeDescriptor) (name : String) : Option MemberDescriptor :=
  let members := type.get_Members
  members.find? (fun m => m.Name == name)

/-! ## Signature inference -/

/-- The element type `tvec->at(0)` of `type->get_ElementType()`. -/
def element_at_0 (type : TypeDescriptor) : Except JitError TypeDescriptor :=
  match type.get_ElementType with
  | [] => .error .out_of_range
  | t :: _ => .ok t

/-- The loop of `_get_retid`: `type` and `ret` are the two locals (`ret` starts
uninitialised, `none`), the list is what remains of the chain from `v` to `pend`. -/
def _get_retid_loop : TypeDescriptor → Option TypeId → List Verb → Except JitError TypeId
  | _, ret, [] =>
    -- `return ret;` after the loop
    match ret with
    | some r => .ok r
    | none => .error .uninitialized_ret
  | type, _, v :: vs =>
    match v.Code with
    | .VC_BGet => .ok (_get_typeid type)
    | .VC_GSGet =>
      _get_retid_loop v.GenericTypeArgument (some .kUIntPtr) vs
    | .VC_SGet =>
      match _find_member type v.MemberName with
      | none =>
        -- `type` is now the stray pointer `&member->Type`, and `_get_typeid(type)` reads
        -- the type code through it
        .error .member_absent
      | some m => _get_retid_loop m.Type_ (some (_get_typeid m.Type_)) vs
    | .VC_LGet | .VC_LInlineGet =>
      -- `vec->at(0)`, then `type` and `ret` are assigned; there is no `break`, so control
      -- falls into `case VC_LContains` and returns from there
      match element_at_0 type with
      | .error e => .error e
      | .ok _ => .ok .kU8
    | .VC_LContains => .ok .kU8
    | .VC_LCount => .ok .kI32
    | _ => .error .bare_throw

/-- Function `_get_retid`. The method `Verb::is_setter` is declared outside the sources and is a
parameter; it is called on `fdesc->Verbs`, the first verb of the chain. -/
def _get_retid (is_setter : Verb → Bool) (fdesc : FunctionDescriptor) :
    Except JitError TypeId :=
  match fdesc.Verbs with
  | [] => .error .verb_out_of_bounds
  | v :: _ =>
    if is_setter v then .ok .kVoid
    else _get_retid_loop fdesc.Type_ none fdesc.Verbs

/-- The loop of `_get_args`: `type` and `vec` are the two locals, the list is what remains
of the chain; `goto out` and the end of the loop both hand `vec` back. -/
def _get_args_loop : TypeDescriptor → List TypeId → List Verb → Except JitError (List TypeId)
  | _, vec, [] => .ok vec
  | type, vec, v :: vs =>
    match v.Code with
    | .VC_BGet => .ok vec
    | .VC_BSet => .ok (vec ++ [_get_typeid type])
    | .VC_LGet =>
      let vec := vec ++ [.kI32]
      match element_at_0 type with
      | .error e => .error e
      | .ok t => _get_args_loop t vec vs
    | .VC_LInlineGet =>
      match element_at_0 type with
      | .error e => .error e
      | .ok t => _get_args_loop t vec vs
    | .VC_LSet =>
      let vec := vec ++ [.kI32]
      match element_at_0 type with
      | .error e => .error e
      | .ok t => .ok (vec ++ [_get_typeid t])
    | .VC_LInlineSet =>
      match element_at_0 type with
      | .error e => .error e
      | .ok t => .ok (vec ++ [_get_typeid t])
    | .VC_LContains =>
      match element_at_0 type with
      | .error e => .error e
      | .ok t => .ok (vec ++ [_get_typeid t])
    | .VC_LCount => .ok vec
    | .VC_GSGet =>
      _get_args_loop v.GenericTypeArgument (vec ++ [.kUIntPtr]) vs
    | .VC_SGet =>
      let vec := vec ++ [.kUIntPtr]
      let type := v.GenericTypeArgument
      .ok (vec ++ [_get_typeid type])
    | _ => .error .bare_throw

/-- Function `_get_args`: the parameter list (`pargs`, of length `nargs`), starting from
`vec{ TypeId::kUIntPtr }`. -/
def _get_args (fdesc : FunctionDescriptor) : Except JitError (List TypeId) :=
  _get_args_loop fdesc.Type_ [.kUIntPtr] fdesc.Verbs

/-! ## The backend, as a log of calls -/

/-- A virtual register handed out by `cc.newGpq`. -/
abbrev Reg := Nat

/-- Modelled from the spec: the calling convention ids of asmjit (`asmjit.h`, not among the
sources); the program only names `CallConv::kIdHost`. -/
inductive CallConv where
  | kIdHost
  deriving DecidableEq, Repr

/-- What `fsig.init(ccId, retId, pargs, nargs)` stores. -/
structure FuncSignature where
  ccId : CallConv
  ret : TypeId
  args : List TypeId
  deriving DecidableEq, Repr

/-- One call made to the backend (code holder, compiler, runtime). -/
inductive Call where
  | code_init
  | addFunc (fsig : FuncSignature)
  | newGpq (r : Reg)
  | mov_load (dst : Reg) (base : Reg)
  | mov_store (base : Reg) (src : Reg)
  | setArg (index : Nat) (r : Reg)
  | add (r : Reg) (imm : Int)
  | ret_reg (r : Reg)
  | ret_void
  | finalize
  | runtime_add
  | release_fdesc
  deriving DecidableEq, Repr

/-- The compiler object `cc`: the calls made so far and the number of registers handed out. -/
structure X86Compiler where
  log : List Call
  nregs : Nat
  deriving DecidableEq, Repr

/-- Record one call. -/
def X86Compiler.emit (cc : X86Compiler) (c : Call) : X86Compiler :=
  { cc with log := cc.log ++ [c] }

/-- The call `cc.newGpq()`: a fresh 64-bit register. -/
def X86Compiler.newGpq (cc : X86Compiler) : Reg × X86Compiler :=
  (cc.nregs, { log := cc.log ++ [.newGpq cc.nregs], nregs := cc.nregs + 1 })

/-- Modelled from the spec: `FuncCtx` (`JitRoutines.h`, not among the sources): the register
of the cell pointer, and the index `newArg` hands out next (the arguments after the cell
pointer, in order). -/
structure FuncCtx where
  cellPtr : Reg
  argIndex : Nat
  deriving DecidableEq, Repr

/-- The call `ctx.newArg()`. -/
def FuncCtx.newArg (ctx : FuncCtx) : Nat × FuncCtx :=
  (ctx.argIndex, { ctx with argIndex := ctx.argIndex + 1 })

/-- What a generator leaves behind: the compiler, the context, and the failure if any. -/
structure JitResult where
  cc : X86Compiler
  ctx : FuncCtx
  err : Option JitError
  deriving DecidableEq, Repr

/-- The call `Dispatch(cc, ctx, type, v + 1)` as a generator at `v` sees it. The argument
`type` is a pointer: `some t` when it points at the type descriptor `t`, `none` when it is
the stray pointer `&member->Type` of a member that `_find_member` did not find. -/
abbrev JitNext := X86Compiler → FuncCtx → Option TypeDescriptor → JitResult

/-- A generator (`JitRoutine`): it gets the compiler, the context, the pointer to the
current type and the verb `v`; `next` is `Dispatch` on `v + 1`. -/
abbrev JitProc := JitNext → X86Compiler → FuncCtx → Option TypeDescriptor → Verb → JitResult

/-! ## Generators -/

/-- Generator `BGet`. -/
def BGet : JitProc := fun _ cc ctx _ _ =>
  let address := ctx.cellPtr
  let (retreg, cc) := cc.newGpq
  let cc := cc.emit (.mov_load retreg address)
  let cc := cc.emit (.ret_reg retreg)
  ⟨cc, ctx, none⟩

/-- Generator `BSet`. -/
def BSet : JitProc := fun _ cc ctx _ _ =>
  let address := ctx.cellPtr
  let (regarg, cc) := cc.newGpq
  let (i, ctx) := ctx.newArg
  let cc := cc.emit (.setArg i regarg)
  let cc := cc.emit (.mov_store address regarg)
  let cc := cc.emit .ret_void
  ⟨cc, ctx, none⟩

/-- Generator `SGet`. The lookup reads the members through `type`, which fails when `type`
is a stray pointer. The pointer `member` it gives is not read: the `add` is emitted and
`Dispatch` is called on `v + 1` with `&member->Type`, whether the member was found or
not. -/
def SGet : JitProc := fun next cc ctx type v =>
  match type with
  | none => ⟨cc, ctx, some .member_absent⟩
  | some type =>
    let member := _find_member type v.MemberName
    let member_offset : Int := 0
    let cc := cc.emit (.add ctx.cellPtr member_offset)
    next cc ctx (member.map fun m => m.Type_)

/-- Generator `SSet`. The lookup reads the members through `type`, which fails when `type`
is a stray pointer. The pointer `member` it gives is not used: the `add` and the return are
emitted whether the member was found or not. -/
def SSet : JitProc := fun _ cc ctx type v =>
  match type with
  | none => ⟨cc, ctx, some .member_absent⟩
  | some type =>
    let _member := _find_member type v.MemberName
    let member_offset : Int := 0
    let cc := cc.emit (.add ctx.cellPtr member_offset)
    let cc := cc.emit .ret_void
    ⟨cc, ctx, none⟩

/-- Generator `GSGet`: its body is empty. -/
def GSGet : JitProc := fun _ cc ctx _ _ => ⟨cc, ctx, none⟩

/-- Generator `GSSet`: its body is empty. -/
def GSSet : JitProc := fun _ cc ctx _ _ => ⟨cc, ctx, none⟩

/-- Generator `LGet`: its body is empty. -/
def LGet : JitProc := fun _ cc ctx _ _ => ⟨cc, ctx, none⟩

/-- Generator `LSet`: its body is empty. -/
def LSet : JitProc := fun _ cc ctx _ _ => ⟨cc, ctx, none⟩

/-- Generator `LInlineGet`: its body is empty. -/
def LInlineGet : JitProc := fun _ cc ctx _ _ => ⟨cc, ctx, none⟩

/-- Generator `LInlineSet`: its body is empty. -/
def LInlineSet : JitProc := fun _ cc ctx _ _ => ⟨cc, ctx, none⟩

/-- Generator `LContains`: its body is empty. -/
def LContains : JitProc := fun _ cc ctx _ _ => ⟨cc, ctx, none⟩

/-- Generator `LCount`: its body is empty. -/
def LCount : JitProc := fun _ cc ctx _ _ => ⟨cc, ctx, none⟩

/-- The table `s_jitprocs`. -/
def s_jitprocs : List (VerbCode × JitProc) :=
  [ (.VC_BGet, BGet), (.VC_BSet, BSet),
    (.VC_SGet, SGet), (.VC_SSet, SSet),
    (.VC_GSGet, GSGet), (.VC_GSSet, GSSet),
    (.VC_LGet, LGet), (.VC_LSet, LSet),
    (.VC_LInlineGet, LInlineGet), (.VC_LInlineSet, LInlineSet),
    (.VC_LContains, LContains), (.VC_LCount, LCount) ]

/-- Function `Dispatch`: call the generator `s_jitprocs[v->Code]`. The list is the chain
from `v` on; the empty list is a `v` past the last verb of the chain. The argument `type`
is a pointer, stray (`none`) after a `StructGet` whose member was not found. -/
def Dispatch : X86Compiler → FuncCtx → Option TypeDescriptor → List Verb → JitResult
  | cc, ctx, _, [] => ⟨cc, ctx, some .verb_out_of_bounds⟩
  | cc, ctx, type, v :: rest =>
    match s_jitprocs.lookup v.Code with
    | none => ⟨cc, ctx, some .null_proc⟩
    | some proc => proc (fun cc1 ctx1 type1 => Dispatch cc1 ctx1 type1 rest) cc ctx type v

/-! ## Driver -/

/-- The answers of the backend: whether `code.init`, `cc.finalize` and `s_runtime.add` report
an error, and the address `s_runtime.add` stores in `ret`. -/
structure Backend where
  init_err : Bool
  finalize_err : Bool
  add_err : Bool
  fn_ptr : Nat
  deriving DecidableEq, Repr

/-- What a call of `CompileFunctionToNative` leaves behind: the calls it made to the backend,
and the pointer it returns or the failure it ends with. -/
structure CompileOutcome where
  log : List Call
  result : Except JitError Nat

/-- The driver `CompileFunctionToNative`: the statements of the source in order, each
call to the backend recorded in the log. -/
def CompileFunctionToNative (be : Backend) (fdesc : FunctionDescriptor) : CompileOutcome :=
  let cc : X86Compiler := ⟨[.code_init], 0⟩
  if be.init_err then ⟨cc.log, .error .bare_throw⟩
  else
    let retId := _get_typeid fdesc.Type_
    match _get_args fdesc with
    | .error e => ⟨cc.log, .error e⟩
    | .ok pargs =>
      let fsig : FuncSignature := ⟨.kIdHost, retId, pargs⟩
      let cc := cc.emit (.addFunc fsig)
      let (cellPtr, cc) := cc.newGpq
      let fctx : FuncCtx := ⟨cellPtr, 1⟩
      let r := Dispatch cc fctx (some fdesc.Type_) fdesc.Verbs
      match r.err with
      | some e => ⟨r.cc.log, .error e⟩
      | none =>
        let cc := r.cc.emit .finalize
        if be.finalize_err then ⟨cc.log, .error .bare_throw⟩
        else
          let cc := cc.emit .runtime_add
          if be.add_err then ⟨cc.log, .error .bare_throw⟩
          else ⟨(cc.emit .release_fdesc).log, .ok be.fn_ptr⟩

/-- The signatures the log declares (`cc.addFunc`), in order. -/
def declared (log : List Call) : List FuncSignature :=
  log.filterMap fun c =>
    match c with
    | .addFunc fsig => some fsig
    | _ => none

/-! ## Specification-side definitions

These are not translations of the source: they state what the claims are about (the type a
prefix of verbs leads to, the table of the parameter-list walk). -/

/-- The type a prefix of `StructGet` / `GenericStructGet` verbs leads to from `type`: the
type of the named member, or the generic type argument; `none` when a member name is not
among the members, or a verb of the prefix is of another kind. -/
def descend : TypeDescriptor → List Verb → Option TypeDescriptor
  | type, [] => some type
  | type, v :: vs =>
    match v.Code with
    | .VC_SGet =>
      match _find_member type v.MemberName with
      | none => none
      | some m => descend m.Type_ vs
    | .VC_GSGet => descend v.GenericTypeArgument vs
    | _ => none

/-- The type a chain of continuing verbs of the parameter walk (`ListGet`, `ListInlineGet`,
`GenericStructGet`) leads to from `type`; `none` when a list verb meets a type without an
element type, or a verb is of another kind. -/
def continuing_walk : TypeDescriptor → List Verb → Option TypeDescriptor
  | type, [] => some type
  | type, v :: vs =>
    match v.Code with
    | .VC_LGet | .VC_LInlineGet =>
      match type.get_ElementType with
      | [] => none
      | t :: _ => continuing_walk t vs
    | .VC_GSGet => continuing_walk v.GenericTypeArgument vs
    | _ => none

/-- The argument a continuing verb adds to the parameter list: the index of `ListGet`, the
member name of `GenericStructGet`, nothing for `ListInlineGet`. -/
def continuing_arg (v : Verb) : Option TypeId :=
  match v.Code with
  | .VC_LGet => some .kI32
  | .VC_GSGet => some .kUIntPtr
  | _ => none

/-- The element type of a list-shaped type, as the spec has it (`element_type`); `none` for a
type that has none. -/
def spec_element_type (type : TypeDescriptor) : Option TypeDescriptor :=
  type.get_ElementType.head?

/-- One row of the spec table of parameter-list inference: what the verb appends, and the
type the walk continues at (`none` in the second place: the verb is terminal). The outer
`none` is the failure of the walk (a verb without a row, a missing element type). -/
def spec_rule (type : TypeDescriptor) (v : Verb) :
    Option (List TypeId × Option TypeDescriptor) :=
  match v.Code with
  | .VC_BGet => some ([], none)
  | .VC_BSet => some ([_get_typeid type], none)
  | .VC_LGet => (spec_element_type type).map fun e => ([.kI32], some e)
  | .VC_LInlineGet => (spec_element_type type).map fun e => ([], some e)
  | .VC_LSet => (spec_element_type type).map fun e => ([.kI32, _get_typeid e], none)
  | .VC_LInlineSet => (spec_element_type type).map fun e => ([_get_typeid e], none)
  | .VC_LContains => (spec_element_type type).map fun e => ([_get_typeid e], none)
  | .VC_LCount => some ([], none)
  | .VC_GSGet => some ([.kUIntPtr], some v.GenericTypeArgument)
  | .VC_SGet => some ([.kUIntPtr, _get_typeid v.GenericTypeArgument], none)
  | .VC_SSet => none
  | .VC_GSSet => none

/-- The reference walk of the spec table: the arguments the verbs append, in order, up to
and including the first terminal verb. -/
def spec_appended : TypeDescriptor → List Verb → Option (List TypeId)
  | _, [] => some []
  | type, v :: vs =>
    match spec_rule type v with
    | none => none
    | some (app, none) => some app
    | some (app, some t) => (spec_appended t vs).map fun l => app ++ l

/-- The reference parameter list: the pointer-sized cell pointer, then what the verbs
append. -/
def spec_params (fdesc : FunctionDescriptor) : Option (List TypeId) :=
  (spec_appended fdesc.Type_ fdesc.Verbs).map fun l => TypeId.kUIntPtr :: l

/-- The member of `type` that the name `name` denotes: `m` stands in the member list of
`type`, its name is `name`, and no member before it in the list has that name. -/
def is_member_named (type : TypeDescriptor) (name : String) (m : MemberDescriptor) : Prop :=
  ∃ before after, type.get_Members = before ++ m :: after ∧ m.Name = name
    ∧ ∀ w ∈ before, w.Name ≠ name

/-- The type a list of member names leads to from `type`: each name denotes a member of the
type reached before it, and the walk goes on at the type of that member. -/
def member_path : TypeDescriptor → List String → TypeDescriptor → Prop
  | type, [], t => type = t
  | type, name :: names, t =>
    ∃ m, is_member_named type name m ∧ member_path m.Type_ names t

/-- Modelled from the spec: the method `Verb::is_setter` is declared outside the sources; this
is the reading under which it inspects only the verb it is called on and holds exactly for
the Set verb kinds. -/
def is_setter_by_code (v : Verb) : Bool :=
  match v.Code with
  | .VC_BSet | .VC_SSet | .VC_GSSet | .VC_LSet | .VC_LInlineSet => true
  | _ => false

/-- The number of argument bindings (`cc.setArg`) in a log. -/
def setArg_count (log : List Call) : Nat :=
  (log.filter fun c =>
    match c with
    | .setArg _ _ => true
    | _ => false).length

/-- Modelled from the spec: the width in bytes of a scalar category (1, 2, 4 or 8; the
pointer-sized category has the width of a 64-bit register, `void` has none). -/
def TypeId.width : TypeId → Nat
  | .kVoid => 0
  | .kI8 | .kU8 => 1
  | .kI16 | .kU16 => 2
  | .kI32 | .kU32 | .kF32 => 4
  | .kI64 | .kU64 | .kF64 | .kUIntPtr => 8

/-- Modelled from the spec: the width in bytes of the memory operand of a call to the
backend. Every register comes from `cc.newGpq` (a 64-bit register) and `x86::ptr(reg)`
carries no size, so a `mov` between a register and memory moves the eight bytes of the
register. -/
def Call.mem_width : Call → Option Nat
  | .mov_load _ _ => some 8
  | .mov_store _ _ => some 8
  | _ => none

/-! ## Helper lemmas -/

/-- The function `_get_typeid` never answers `kVoid`. -/
theorem _get_typeid_ne_kVoid (t : TypeDescriptor) : _get_typeid t ≠ .kVoid := by
  cases t with
  | mk c ms es => cases c <;> (intro h; cases h)

/-- The loop of `_get_retid` over a prefix of `StructGet` verbs whose names resolve: it
arrives at the rest of the chain with the type the prefix leads to, and with that type's
scalar category as the tentative return. -/
theorem _get_retid_loop_SGet_run (t : TypeDescriptor) (rest : List Verb) :
    ∀ (pre : List Verb) (root : TypeDescriptor) (r : Option TypeId),
      (∀ v ∈ pre, v.Code = .VC_SGet) → descend root pre = some t →
      (r = some (_get_typeid root) ∨ pre ≠ []) →
      _get_retid_loop root r (pre ++ rest) = _get_retid_loop t (some (_get_typeid t)) rest := by
  intro pre
  induction pre with
  | nil =>
    intro root r _ hres hr
    simp only [descend, Option.some.injEq] at hres
    subst hres
    rcases hr with hr | hr
    · subst hr; rfl
    · exact absurd rfl hr
  | cons v vs ih =>
    intro root r hall hres _
    have hv : v.Code = .VC_SGet := hall v (List.mem_cons_self _ _)
    simp only [descend, hv] at hres
    simp only [List.cons_append, _get_retid_loop, hv]
    cases hm : _find_member root v.MemberName with
    | none => simp [hm] at hres
    | some m =>
      simp only [hm] at hres
      simp only []
      exact ih m.Type_ _ (fun w hw => hall w (List.mem_cons_of_mem _ hw)) hres (Or.inl rfl)

/-- The option of a returned value. -/
theorem toOption_ok {ε α : Type} (a : α) : (Except.ok a : Except ε α).toOption = some a := rfl

/-- The option of a failure. -/
theorem toOption_error {ε α : Type} (e : ε) : (Except.error e : Except ε α).toOption = none :=
  rfl

/-- The loop of `_get_args` started with `vec` yields `vec` followed by what the reference
walk appends, and fails exactly when the reference walk fails. -/
theorem _get_args_loop_eq_spec :
    ∀ (vs : List Verb) (type : TypeDescriptor) (vec : List TypeId),
      (_get_args_loop type vec vs).toOption
        = (spec_appended type vs).map fun l => vec ++ l := by
  intro vs
  induction vs with
  | nil => intro type vec; simp [_get_args_loop, spec_appended, toOption_ok]
  | cons v vs ih =>
    intro type vec
    cases type with
    | mk c ms es =>
      cases hc : v.Code <;> cases es <;>
        simp [_get_args_loop, spec_appended, spec_rule, spec_element_type, element_at_0,
          TypeDescriptor.get_ElementType, toOption_ok, toOption_error, hc, ih,
          Function.comp_def]

/-- The loop of `_get_args` over a chain of continuing verbs whose list verbs each meet a
type with an element type: it runs to the end of the chain and hands back `vec` with the
arguments of the verbs appended. -/
theorem _get_args_loop_continuing (t : TypeDescriptor) :
    ∀ (vs : List Verb) (type : TypeDescriptor) (vec : List TypeId),
      continuing_walk type vs = some t →
      _get_args_loop type vec vs = .ok (vec ++ vs.filterMap continuing_arg) := by
  intro vs
  induction vs with
  | nil => intro type vec _; simp [_get_args_loop]
  | cons v vs ih =>
    intro type vec h
    cases type with
    | mk c ms es =>
      cases hc : v.Code <;> cases es <;>
        simp [continuing_walk, hc, TypeDescriptor.get_ElementType] at h <;>
        simp [_get_args_loop, element_at_0, TypeDescriptor.get_ElementType, hc,
          continuing_arg, List.filterMap_cons, ih _ _ h]

/-- The entry of `s_jitprocs` for `StructSet`. -/
theorem s_jitprocs_SSet : s_jitprocs.lookup .VC_SSet = some SSet := rfl

/-- The driver when `code.init` reports an error. -/
theorem CompileFunctionToNative_init_err (be : Backend) (fdesc : FunctionDescriptor)
    (h : be.init_err = true) :
    CompileFunctionToNative be fdesc = ⟨[.code_init], .error .bare_throw⟩ := by
  simp [CompileFunctionToNative, h]

/-- The driver when `_get_args` fails. -/
theorem CompileFunctionToNative_args_err (be : Backend) (fdesc : FunctionDescriptor)
    (e : JitError) (hi : be.init_err = false) (h : _get_args fdesc = .error e) :
    CompileFunctionToNative be fdesc = ⟨[.code_init], .error e⟩ := by
  simp [CompileFunctionToNative, hi, h]

/-- The driver when a generator fails: the log ends with what `Dispatch` emitted. -/
theorem CompileFunctionToNative_dispatch_err (be : Backend) (fdesc : FunctionDescriptor)
    (pargs : List TypeId) (e : JitError) (hi : be.init_err = false)
    (ha : _get_args fdesc = .ok pargs)
    (hd : (Dispatch
            ⟨[.code_init, .addFunc ⟨.kIdHost, _get_typeid fdesc.Type_, pargs⟩, .newGpq 0], 1⟩
            ⟨0, 1⟩ (some fdesc.Type_) fdesc.Verbs).err = some e) :
    CompileFunctionToNative be fdesc
      = ⟨(Dispatch
            ⟨[.code_init, .addFunc ⟨.kIdHost, _get_typeid fdesc.Type_, pargs⟩, .newGpq 0], 1⟩
            ⟨0, 1⟩ (some fdesc.Type_) fdesc.Verbs).cc.log, .error e⟩ := by
  simp only [CompileFunctionToNative, hi, ha, X86Compiler.emit, X86Compiler.newGpq]
  simp at hd ⊢
  simp [hd]

/-- The loop of `_get_retid` over a prefix of `StructGet` / `GenericStructGet` verbs that
resolves, when the verb after the prefix returns `res` whatever the locals are. -/
theorem _get_retid_loop_descend (t : TypeDescriptor) (v : Verb) (post : List Verb)
    (res : Except JitError TypeId)
    (hres : ∀ type r, _get_retid_loop type r (v :: post) = res) :
    ∀ (pre : List Verb) (root : TypeDescriptor) (r : Option TypeId),
      descend root pre = some t →
      _get_retid_loop root r (pre ++ v :: post) = res := by
  intro pre
  induction pre with
  | nil => intro root r _; exact hres root r
  | cons p ps ih =>
    intro root r hd
    cases hc : p.Code <;> simp only [descend, hc] at hd <;> try (exact absurd hd (by simp))
    · cases hm : _find_member root p.MemberName with
      | none => simp [hm] at hd
      | some m =>
        simp only [hm] at hd
        simp only [List.cons_append, _get_retid_loop, hc, hm]
        exact ih _ _ hd
    · simp only [List.cons_append, _get_retid_loop, hc]
      exact ih _ _ hd

/-- Function `Dispatch` at a verb, with the entry of `s_jitprocs` looked up. -/
theorem Dispatch_cons (cc : X86Compiler) (ctx : FuncCtx) (type : Option TypeDescriptor)
    (v : Verb) (rest : List Verb) :
    Dispatch cc ctx type (v :: rest)
      = (match v.Code with
          | .VC_BGet => BGet | .VC_BSet => BSet
          | .VC_SGet => SGet | .VC_SSet => SSet
          | .VC_GSGet => GSGet | .VC_GSSet => GSSet
          | .VC_LGet => LGet | .VC_LSet => LSet
          | .VC_LInlineGet => LInlineGet | .VC_LInlineSet => LInlineSet
          | .VC_LContains => LContains | .VC_LCount => LCount)
          (fun cc1 ctx1 type1 => Dispatch cc1 ctx1 type1 rest) cc ctx type v := by
  cases hc : v.Code <;> simp only [Dispatch, hc] <;> rfl

/-- Every argument binding `Dispatch` adds to the log binds a register handed out during the
dispatch. -/
theorem Dispatch_setArg_reg :
    ∀ (vs : List Verb) (cc : X86Compiler) (ctx : FuncCtx) (type : Option TypeDescriptor)
      (i : Nat) (r : Reg),
      Call.setArg i r ∈ (Dispatch cc ctx type vs).cc.log →
        Call.setArg i r ∈ cc.log ∨ cc.nregs ≤ r := by
  intro vs
  induction vs with
  | nil => intro cc ctx type i r h; exact Or.inl (by simpa [Dispatch] using h)
  | cons v vs ih =>
    intro cc ctx type i r h
    rw [Dispatch_cons] at h
    cases hc : v.Code <;> rw [hc] at h <;>
      simp only [BGet, BSet, SSet, GSGet, GSSet, LGet, LSet, LInlineGet, LInlineSet, LContains,
        LCount, X86Compiler.emit, X86Compiler.newGpq, FuncCtx.newArg] at h
    all_goals try (exact Or.inl h)
    · simp at h; exact Or.inl h
    · simp at h
      rcases h with h | h
      · exact Or.inl h
      · exact Or.inr (Nat.le_of_eq h.2.symm)
    · simp only [SGet] at h
      cases type with
      | none => exact Or.inl h
      | some ty =>
        simp only [X86Compiler.emit] at h
        rcases ih _ _ _ i r h with h2 | h2
        · simp at h2; exact Or.inl h2
        · exact Or.inr h2
    · cases type with
      | none => exact Or.inl h
      | some ty => simp at h; exact Or.inl h

/-- The log of the driver is the log of its first call alone, or holds what `Dispatch`
left, started from the declaration of the function and the register of the cell pointer,
followed by calls that bind no argument. -/
theorem CompileFunctionToNative_setArg (be : Backend) (fdesc : FunctionDescriptor) (i : Nat)
    (r : Reg) (h : Call.setArg i r ∈ (CompileFunctionToNative be fdesc).log) :
    ∃ pargs, Call.setArg i r ∈
      (Dispatch ⟨[.code_init, .addFunc ⟨.kIdHost, _get_typeid fdesc.Type_, pargs⟩, .newGpq 0], 1⟩
        ⟨0, 1⟩ (some fdesc.Type_) fdesc.Verbs).cc.log := by
  unfold CompileFunctionToNative at h
  simp only [X86Compiler.emit, X86Compiler.newGpq] at h
  split at h
  · simp at h
  · split at h
    · simp at h
    · rename_i pargs _
      refine ⟨pargs, ?_⟩
      simp only [List.cons_append, List.nil_append] at h
      split at h
      · exact h
      · split at h
        · simpa using h
        · split at h
          · simpa using h
          · simpa using h

/-- The loop of `_get_args` over a prefix of continuing verbs whose list verbs each meet a
type with an element type: it arrives at the rest of the chain with the type the prefix
leads to and with the arguments of the prefix appended. -/
theorem _get_args_loop_continuing_run (t : TypeDescriptor) (rest : List Verb) :
    ∀ (pre : List Verb) (type : TypeDescriptor) (vec : List TypeId),
      continuing_walk type pre = some t →
      _get_args_loop type vec (pre ++ rest)
        = _get_args_loop t (vec ++ pre.filterMap continuing_arg) rest := by
  intro pre
  induction pre with
  | nil =>
    intro type vec h
    simp only [continuing_walk, Option.some.injEq] at h
    subst h
    simp
  | cons v vs ih =>
    intro type vec h
    cases type with
    | mk c ms es =>
      cases hc : v.Code <;> cases es <;>
        simp [continuing_walk, hc, TypeDescriptor.get_ElementType] at h <;>
        simp [_get_args_loop, element_at_0, TypeDescriptor.get_ElementType, hc,
          continuing_arg, List.filterMap_cons, ih _ _ h]

/-- After a terminal verb of the parameter walk the loop of `_get_args` reads no verb. -/
theorem _get_args_loop_terminal (type : TypeDescriptor) (vec : List TypeId) (t : Verb)
    (s : List Verb)
    (ht : t.Code = .VC_BGet ∨ t.Code = .VC_BSet ∨ t.Code = .VC_LSet ∨ t.Code = .VC_LInlineSet
      ∨ t.Code = .VC_LContains ∨ t.Code = .VC_LCount ∨ t.Code = .VC_SGet) :
    _get_args_loop type vec (t :: s) = _get_args_loop type vec [t] := by
  rcases ht with h | h | h | h | h | h | h <;> simp only [_get_args_loop, h]

/-- The loop of `_get_args` over continuing verbs and then a terminal verb reads no verb
after the terminal one. -/
theorem _get_args_loop_stops (t : Verb) (s : List Verb)
    (ht : t.Code = .VC_BGet ∨ t.Code = .VC_BSet ∨ t.Code = .VC_LSet ∨ t.Code = .VC_LInlineSet
      ∨ t.Code = .VC_LContains ∨ t.Code = .VC_LCount ∨ t.Code = .VC_SGet) :
    ∀ (p : List Verb) (type : TypeDescriptor) (vec : List TypeId),
      (∀ v ∈ p, v.Code = .VC_LGet ∨ v.Code = .VC_LInlineGet ∨ v.Code = .VC_GSGet) →
      _get_args_loop type vec (p ++ [t] ++ s) = _get_args_loop type vec (p ++ [t]) := by
  intro p
  induction p with
  | nil => intro type vec _; exact _get_args_loop_terminal type vec t s ht
  | cons v vs ih =>
    intro type vec hp
    have hvs : ∀ w ∈ vs, w.Code = .VC_LGet ∨ w.Code = .VC_LInlineGet ∨ w.Code = .VC_GSGet :=
      fun w hw => hp w (List.mem_cons_of_mem _ hw)
    rcases hp v (List.mem_cons_self _ _) with hc | hc | hc
    · simp only [List.cons_append, _get_args_loop, hc]
      cases element_at_0 type with
      | error e => rfl
      | ok e => exact ih e _ hvs
    · simp only [List.cons_append, _get_args_loop, hc]
      cases element_at_0 type with
      | error e => rfl
      | ok e => exact ih e _ hvs
    · simp only [List.cons_append, _get_args_loop, hc]
      exact ih _ _ hvs

/-- The search of `find_if` stops at the first member with the name: members before it
with other names are passed over. -/
theorem find_first_named (name : String) (m : MemberDescriptor)
    (after : List MemberDescriptor) (hn : m.Name = name) :
    ∀ (before : List MemberDescriptor), (∀ w ∈ before, w.Name ≠ name) →
      (before ++ m :: after).find? (fun w => w.Name == name) = some m := by
  intro before
  induction before with
  | nil => intro _; simp [List.find?, hn]
  | cons w ws ih =>
    intro hb
    have hw : (w.Name == name) = false := by
      simpa using hb w (List.mem_cons_self _ _)
    simp only [List.cons_append, List.find?, hw]
    exact ih (fun u hu => hb u (List.mem_cons_of_mem _ hu))

/-- The function `_find_member` gives the member the name denotes. -/
theorem _find_member_of_named (type : TypeDescriptor) (name : String) (m : MemberDescriptor)
    (h : is_member_named type name m) : _find_member type name = some m := by
  obtain ⟨before, after, hms, hn, hb⟩ := h
  simp only [_find_member, hms]
  exact find_first_named name m after hn before hb

/-- A chain of `StructGet` verbs whose names denote members one after the other leads, by
the lookups of the code, to the type the names lead to. -/
theorem descend_of_member_path (t : TypeDescriptor) :
    ∀ (pre : List Verb) (root : TypeDescriptor),
      (∀ w ∈ pre, w.Code = .VC_SGet) →
      member_path root (pre.map fun w => w.MemberName) t →
      descend root pre = some t := by
  intro pre
  induction pre with
  | nil =>
    intro root _ h
    simp only [List.map_nil, member_path] at h
    simp [descend, h]
  | cons v vs ih =>
    intro root hall h
    have hv : v.Code = .VC_SGet := hall v (List.mem_cons_self _ _)
    simp only [List.map_cons, member_path] at h
    obtain ⟨m, hm, hrest⟩ := h
    simp only [descend, hv, _find_member_of_named root v.MemberName m hm]
    exact ih m.Type_ (fun w hw => hall w (List.mem_cons_of_mem _ hw)) hrest

/-! ## Scalar type mapping: claims -/

/-- C1: `_get_typeid` (the spec's `scalar_of`) is total and is the fixed table: each of the
twelve primitive codes goes to its scalar category (`BOOL` to `u8`, `CHAR` to `u16`), and
every other type code goes to the pointer-sized category `kUIntPtr`. -/
theorem _get_typeid_table (t : TypeDescriptor) :
    _get_typeid t =
      match t.get_TypeCode with
      | .TC_U8 => .kU8 | .TC_U16 => .kU16 | .TC_U32 => .kU32 | .TC_U64 => .kU64
      | .TC_I8 => .kI8 | .TC_I16 => .kI16 | .TC_I32 => .kI32 | .TC_I64 => .kI64
      | .TC_F32 => .kF32 | .TC_F64 => .kF64
      | .TC_BOOL => .kU8 | .TC_CHAR => .kU16
      | .TC_OTHER _ => .kUIntPtr := by
  cases t with
  | mk c ms es => cases c <;> rfl

/-! ## Driver: the declared signature -/

/-- C2 (the code at the claim): with `code.init` succeeding, the only signature
`CompileFunctionToNative` declares for the chain `[BasicSet]` is
`(ptr, scalar_of root) -> scalar_of root`: two parameters as claimed, but the return
category is `_get_typeid` of the root type, which is never `kVoid`; on a 32-bit signed
root it is `(ptr, i32) -> i32`. -/
theorem CompileFunctionToNative_BSet_declares (root : TypeDescriptor) (name : String)
    (gta : TypeDescriptor) (fe ae : Bool) (p : Nat) :
    declared (CompileFunctionToNative ⟨false, fe, ae, p⟩
        ⟨root, [⟨.VC_BSet, name, gta⟩]⟩).log
        = [⟨.kIdHost, _get_typeid root, [.kUIntPtr, _get_typeid root]⟩]
      ∧ _get_typeid root ≠ .kVoid
      ∧ declared (CompileFunctionToNative ⟨false, fe, ae, p⟩
          ⟨.mk .TC_I32 [] [], [⟨.VC_BSet, name, gta⟩]⟩).log
          = [⟨.kIdHost, .kI32, [.kUIntPtr, .kI32]⟩] := by
  refine ⟨?_, _get_typeid_ne_kVoid root, ?_⟩ <;> cases fe <;> cases ae <;> rfl

/-- C3: with `code.init` succeeding, the only signature `CompileFunctionToNative` declares
for the chain `[BasicGet]` is `(ptr) -> scalar_of root`, for every root type: one parameter,
the pointer-sized cell pointer, and return category `_get_typeid` of the root type; on a
32-bit signed root it is `(ptr) -> i32`. -/
theorem CompileFunctionToNative_BGet_declares (root : TypeDescriptor) (name : String)
    (gta : TypeDescriptor) (ms : List MemberDescriptor) (es : List TypeDescriptor)
    (fe ae : Bool) (p : Nat) :
    declared (CompileFunctionToNative ⟨false, fe, ae, p⟩
        ⟨root, [⟨.VC_BGet, name, gta⟩]⟩).log
        = [⟨.kIdHost, _get_typeid root, [.kUIntPtr]⟩]
      ∧ declared (CompileFunctionToNative ⟨false, fe, ae, p⟩
          ⟨.mk .TC_I32 ms es, [⟨.VC_BGet, name, gta⟩]⟩).log
          = [⟨.kIdHost, .kI32, [.kUIntPtr]⟩] := by
  constructor <;> cases fe <;> cases ae <;> rfl

/-! ## Signature inference: claims -/

/-- C4 (the code at the claim): on the single-verb chain `[StructGet x]`, `_get_args` does
not look the member up and does not yield `[cellPointer]`: for every root type it yields
the three-element list `[ptr, ptr, scalar_of (the verb's generic type argument)]`; so it
does for a root type that has a member `x` of 64-bit float type. -/
theorem _get_args_SGet_single (root : TypeDescriptor) (name : String) (gta : TypeDescriptor) :
    _get_args ⟨root, [⟨.VC_SGet, name, gta⟩]⟩
        = .ok [.kUIntPtr, .kUIntPtr, _get_typeid gta]
      ∧ _get_args ⟨root, [⟨.VC_SGet, name, gta⟩]⟩ ≠ .ok [.kUIntPtr]
      ∧ _find_member (.mk (.TC_OTHER 0) [.mk "x" (.mk .TC_F64 [] []) 8] []) "x"
          = some (.mk "x" (.mk .TC_F64 [] []) 8)
      ∧ _get_args ⟨.mk (.TC_OTHER 0) [.mk "x" (.mk .TC_F64 [] []) 8] [],
            [⟨.VC_SGet, "x", .mk .TC_F64 [] []⟩]⟩
          = .ok [.kUIntPtr, .kUIntPtr, .kF64] := by
  refine ⟨rfl, ?_, rfl, rfl⟩
  intro h
  have h2 := congrArg (fun r => (Except.toOption r).map List.length) h
  simp [_get_args, _get_args_loop, Except.toOption] at h2

/-- C5: on a non-empty chain `v :: vs` of `StructGet` verbs whose member names denote, one
after the other from the root type, members of the type reached so far (each name is the
name of the member taken, the first of that name in the member list), leading to the type
`t` of the last member, with `is_setter` false on the head verb, `_get_retid` returns
`scalar_of t`, and it returns the same when a final `BasicGet` follows the chain. -/
theorem _get_retid_SGet_chain (is_setter : Verb → Bool) (root t : TypeDescriptor) (v : Verb)
    (vs : List Verb) (b : Verb) (hall : ∀ w ∈ v :: vs, w.Code = .VC_SGet)
    (hres : member_path root ((v :: vs).map fun w => w.MemberName) t)
    (hset : is_setter v = false) (hb : b.Code = .VC_BGet) :
    _get_retid is_setter ⟨root, v :: vs⟩ = .ok (_get_typeid t)
      ∧ _get_retid is_setter ⟨root, (v :: vs) ++ [b]⟩ = .ok (_get_typeid t) := by
  have hd : descend root (v :: vs) = some t := descend_of_member_path t (v :: vs) root hall hres
  constructor
  · have h := _get_retid_loop_SGet_run t [] (v :: vs) root none hall hd
      (Or.inr (List.cons_ne_nil _ _))
    simp only [List.append_nil] at h
    simp only [_get_retid, hset, Bool.false_eq_true, if_false, h]
    rfl
  · have h := _get_retid_loop_SGet_run t [b] (v :: vs) root none hall hd
      (Or.inr (List.cons_ne_nil _ _))
    simp only [_get_retid, List.cons_append, hset, Bool.false_eq_true, if_false]
    simp only [List.cons_append] at h
    rw [h]
    simp only [_get_retid_loop, hb]

/-- C5, at an input: the root record has the members `a`, a 32-bit integer, and then `x`, a
64-bit float; `[StructGet x]` and `[StructGet x, BasicGet]` both give `f64`, the category
of the member named `x`, not that of the first member. -/
theorem _get_retid_SGet_chain_witness :
    member_path
        (.mk (.TC_OTHER 0) [.mk "a" (.mk .TC_I32 [] []) 0, .mk "x" (.mk .TC_F64 [] []) 8] [])
        ["x"] (.mk .TC_F64 [] [])
      ∧ _get_retid (fun _ => false)
        ⟨.mk (.TC_OTHER 0) [.mk "a" (.mk .TC_I32 [] []) 0, .mk "x" (.mk .TC_F64 [] []) 8] [],
          [⟨.VC_SGet, "x", .mk .TC_I32 [] []⟩]⟩ = .ok .kF64
      ∧ _get_retid (fun _ => false)
        ⟨.mk (.TC_OTHER 0) [.mk "a" (.mk .TC_I32 [] []) 0, .mk "x" (.mk .TC_F64 [] []) 8] [],
          [⟨.VC_SGet, "x", .mk .TC_I32 [] []⟩] ++ [⟨.VC_BGet, "", .mk .TC_I32 [] []⟩]⟩
          = .ok .kF64 :=
  have hp : member_path
      (.mk (.TC_OTHER 0) [.mk "a" (.mk .TC_I32 [] []) 0, .mk "x" (.mk .TC_F64 [] []) 8] [])
      ["x"] (.mk .TC_F64 [] []) :=
    ⟨.mk "x" (.mk .TC_F64 [] []) 8,
      ⟨[.mk "a" (.mk .TC_I32 [] []) 0], [], rfl, rfl,
        by intro w hw; simp only [List.mem_singleton] at hw; subst hw; decide⟩, rfl⟩
  ⟨hp, _get_retid_SGet_chain (fun _ => false)
    (.mk (.TC_OTHER 0) [.mk "a" (.mk .TC_I32 [] []) 0, .mk "x" (.mk .TC_F64 [] []) 8] [])
    (.mk .TC_F64 [] [])
    ⟨.VC_SGet, "x", .mk .TC_I32 [] []⟩ [] ⟨.VC_BGet, "", .mk .TC_I32 [] []⟩
    (by intro w hw; simp only [List.mem_singleton] at hw; subst hw; rfl) hp rfl rfl⟩

/-- C6 (the code at the claim): on `[ListGet, BasicGet]` and on `[ListInlineGet, BasicGet]`
over a list-shaped type with element type `E`, `_get_retid` does not continue to the next
verb: the list case has no `break` and runs into the `ListContains` case, so the result is
`u8` whatever `E` is (`void` when `is_setter` holds of the head verb); for a list of 32-bit
signed integers it is `u8`, while `scalar_of E` is `i32`. -/
theorem _get_retid_LGet_BGet (is_setter : Verb → Bool) (c : TypeCode)
    (ms : List MemberDescriptor) (E : TypeDescriptor) (es : List TypeDescriptor)
    (n1 n2 : String) (g1 g2 : TypeDescriptor) :
    _get_retid is_setter ⟨.mk c ms (E :: es), [⟨.VC_LGet, n1, g1⟩, ⟨.VC_BGet, n2, g2⟩]⟩
        = (if is_setter ⟨.VC_LGet, n1, g1⟩ then .ok .kVoid else .ok .kU8)
      ∧ _get_retid is_setter
          ⟨.mk c ms (E :: es), [⟨.VC_LInlineGet, n1, g1⟩, ⟨.VC_BGet, n2, g2⟩]⟩
        = (if is_setter ⟨.VC_LInlineGet, n1, g1⟩ then .ok .kVoid else .ok .kU8)
      ∧ _get_retid (fun _ => false)
          ⟨.mk c ms [.mk .TC_I32 [] []], [⟨.VC_LGet, n1, g1⟩, ⟨.VC_BGet, n2, g2⟩]⟩
        = .ok .kU8
      ∧ _get_typeid (.mk .TC_I32 [] []) = .kI32 := by
  refine ⟨rfl, rfl, rfl, rfl⟩

/-- C7: the parameter list `_get_args` computes is the one of the reference walk of the spec
table (`spec_params`): the pointer-sized cell pointer, then per verb what its row appends,
up to and including the first terminal verb; the one fails exactly when the other does.
In particular a returned list is never empty and starts with the pointer-sized
category. -/
theorem _get_args_refines_spec_table (fdesc : FunctionDescriptor) :
    (_get_args fdesc).toOption = spec_params fdesc
      ∧ (match _get_args fdesc with
          | .ok l => l.head? = some .kUIntPtr
          | .error _ => True) := by
  have h := _get_args_loop_eq_spec fdesc.Verbs fdesc.Type_ [.kUIntPtr]
  refine ⟨?_, ?_⟩
  · simpa [_get_args, spec_params] using h
  · unfold _get_args
    cases hr : _get_args_loop fdesc.Type_ [.kUIntPtr] fdesc.Verbs with
    | error e => trivial
    | ok l =>
      rw [hr] at h
      cases hs : spec_appended fdesc.Type_ fdesc.Verbs with
      | none => simp [hs, Except.toOption] at h
      | some a =>
        simp [hs, Except.toOption] at h
        subst h
        rfl

/-- C8 (the claim fails): `_get_args` returns a parameter list, not an error, on the empty
chain (`[ptr]`), on `[ListGet]` over a list of 32-bit integers (`[ptr, i32]`), on
`[ListInlineGet]` over the same list (`[ptr]`) and on `[GenericStructGet]`
(`[ptr, ptr]`). -/
theorem _get_args_exhausted_returns :
    _get_args ⟨.mk .TC_I32 [] [], []⟩ = .ok [.kUIntPtr]
      ∧ _get_args ⟨.mk (.TC_OTHER 1) [] [.mk .TC_I32 [] []],
          [⟨.VC_LGet, "", .mk .TC_I32 [] []⟩]⟩ = .ok [.kUIntPtr, .kI32]
      ∧ _get_args ⟨.mk (.TC_OTHER 1) [] [.mk .TC_I32 [] []],
          [⟨.VC_LInlineGet, "", .mk .TC_I32 [] []⟩]⟩ = .ok [.kUIntPtr]
      ∧ _get_args ⟨.mk (.TC_OTHER 0) [] [],
          [⟨.VC_GSGet, "", .mk .TC_I32 [] []⟩]⟩ = .ok [.kUIntPtr, .kUIntPtr] :=
  ⟨rfl, rfl, rfl, rfl⟩

/-- C8 (amended): on a chain that is exhausted without reaching a terminal rule, that is
the empty chain or a chain made only of continuing verbs (`ListGet`, `ListInlineGet`,
`GenericStructGet`) whose list verbs each meet a type with an element type, `_get_args`
returns the parameter list built so far: the cell pointer, then `i32` per `ListGet` and a
pointer-sized argument per `GenericStructGet`. -/
theorem _get_args_continuing_chain (root t : TypeDescriptor) (vs : List Verb)
    (h : continuing_walk root vs = some t) :
    _get_args ⟨root, vs⟩ = .ok (.kUIntPtr :: vs.filterMap continuing_arg) := by
  simpa [_get_args] using _get_args_loop_continuing t vs root [.kUIntPtr] h

/-- C8 (amended), at an input: `[ListGet, GenericStructGet]` over a list of 32-bit integers
gives `[ptr, i32, ptr]`. -/
theorem _get_args_continuing_chain_witness :
    continuing_walk (.mk (.TC_OTHER 1) [] [.mk .TC_I32 [] []])
        [⟨.VC_LGet, "", .mk .TC_I32 [] []⟩, ⟨.VC_GSGet, "", .mk .TC_F64 [] []⟩]
        = some (.mk .TC_F64 [] [])
      ∧ _get_args ⟨.mk (.TC_OTHER 1) [] [.mk .TC_I32 [] []],
        [⟨.VC_LGet, "", .mk .TC_I32 [] []⟩, ⟨.VC_GSGet, "", .mk .TC_F64 [] []⟩]⟩
      = .ok (.kUIntPtr :: [.kI32, .kUIntPtr]) :=
  ⟨rfl, _get_args_continuing_chain (.mk (.TC_OTHER 1) [] [.mk .TC_I32 [] []])
    (.mk .TC_F64 [] [])
    [⟨.VC_LGet, "", .mk .TC_I32 [] []⟩, ⟨.VC_GSGet, "", .mk .TC_F64 [] []⟩] rfl⟩

/-! ## Driver: absent members -/

/-- C9 (the code at the claim): a `StructGet` or `StructSet` verb whose member name is
absent from the type it is applied to does not make `CompileFunctionToNative` fail. The
lookup `_find_member` has no failure: it returns the pointer read past the last member, and
the generators do not read through it. `SGet` emits its `add` and goes on to the next verb,
`SSet` emits its `add` and its return. So `[StructGet nope, BasicGet]` on a root type
without members, and on a record whose only member is `x`, is compiled to the end with
the backend answering no error: the buffer is finalized, the code is registered and a
function pointer is returned; likewise `[StructGet x, StructSet nope]`. -/
theorem CompileFunctionToNative_absent_member_compiles (c : TypeCode)
    (es : List TypeDescriptor) (n n2 : String) (g1 g2 : TypeDescriptor) (fp : Nat) :
    _find_member (.mk c [] es) n = none
      ∧ (CompileFunctionToNative ⟨false, false, false, fp⟩
          ⟨.mk c [] es, [⟨.VC_SGet, n, g1⟩, ⟨.VC_BGet, n2, g2⟩]⟩).result = .ok fp
      ∧ (CompileFunctionToNative ⟨false, false, false, fp⟩
          ⟨.mk c [] es, [⟨.VC_SGet, n, g1⟩, ⟨.VC_BGet, n2, g2⟩]⟩).log
          = [.code_init,
             .addFunc ⟨.kIdHost, _get_typeid (.mk c [] es),
               [.kUIntPtr, .kUIntPtr, _get_typeid g1]⟩,
             .newGpq 0, .add 0 0, .newGpq 1, .mov_load 1 0, .ret_reg 1,
             .finalize, .runtime_add, .release_fdesc]
      ∧ (TypeDescriptor.get_Members
            (.mk (.TC_OTHER 0) [.mk "x" (.mk .TC_F64 [] []) 8] [])).map MemberDescriptor.Name
          = ["x"]
      ∧ (CompileFunctionToNative ⟨false, false, false, fp⟩
          ⟨.mk (.TC_OTHER 0) [.mk "x" (.mk .TC_F64 [] []) 8] [],
            [⟨.VC_SGet, "nope", g1⟩, ⟨.VC_BGet, n2, g2⟩]⟩).result = .ok fp
      ∧ (CompileFunctionToNative ⟨false, false, false, fp⟩
          ⟨.mk (.TC_OTHER 0) [.mk "x" (.mk .TC_F64 [] []) 8] [],
            [⟨.VC_SGet, "nope", g1⟩, ⟨.VC_BGet, n2, g2⟩]⟩).log
          = [.code_init,
             .addFunc ⟨.kIdHost, .kUIntPtr, [.kUIntPtr, .kUIntPtr, _get_typeid g1]⟩,
             .newGpq 0, .add 0 0, .newGpq 1, .mov_load 1 0, .ret_reg 1,
             .finalize, .runtime_add, .release_fdesc]
      ∧ (CompileFunctionToNative ⟨false, false, false, fp⟩
          ⟨.mk (.TC_OTHER 0) [.mk "x" (.mk .TC_F64 [] []) 8] [],
            [⟨.VC_SGet, "x", g1⟩, ⟨.VC_SSet, "nope", g2⟩]⟩).result = .ok fp
      ∧ (CompileFunctionToNative ⟨false, false, false, fp⟩
          ⟨.mk (.TC_OTHER 0) [.mk "x" (.mk .TC_F64 [] []) 8] [],
            [⟨.VC_SGet, "x", g1⟩, ⟨.VC_SSet, "nope", g2⟩]⟩).log
          = [.code_init,
             .addFunc ⟨.kIdHost, .kUIntPtr, [.kUIntPtr, .kUIntPtr, _get_typeid g1]⟩,
             .newGpq 0, .add 0 0, .add 0 0, .ret_void,
             .finalize, .runtime_add, .release_fdesc] :=
  ⟨rfl, rfl, rfl, rfl, rfl, rfl, rfl, rfl⟩

/-! ## Return-type inference: list queries -/

/-- C10: on a chain whose walk reaches a `ListContains` or `ListCount` verb `v`, at the head
of the chain or after a prefix of `StructGet` / `GenericStructGet` verbs that resolves from
the root type, with `is_setter` false on the head verb, `_get_retid` returns the 8-bit
unsigned category for `ListContains` and the 32-bit signed category for `ListCount`,
whatever follows `v`. -/
theorem _get_retid_LContains_LCount (is_setter : Verb → Bool) (root t : TypeDescriptor)
    (pre : List Verb) (v : Verb) (post : List Verb)
    (hres : descend root pre = some t)
    (hv : v.Code = .VC_LContains ∨ v.Code = .VC_LCount)
    (hset : ∀ h ∈ (pre ++ v :: post).head?, is_setter h = false) :
    _get_retid is_setter ⟨root, pre ++ v :: post⟩
      = .ok (match v.Code with
              | .VC_LContains => .kU8
              | _ => .kI32) := by
  have hloop : _get_retid_loop root none (pre ++ v :: post)
      = .ok (match v.Code with
              | .VC_LContains => .kU8
              | _ => .kI32) := by
    apply _get_retid_loop_descend t v post _ _ pre root none hres
    intro type r
    rcases hv with hv | hv <;> simp only [_get_retid_loop, hv]
  cases pre with
  | nil =>
    have hs : is_setter v = false := hset v (by simp)
    simp only [_get_retid, List.nil_append, hs, Bool.false_eq_true, if_false]
    simpa using hloop
  | cons p ps =>
    have hs : is_setter p = false := hset p (by simp)
    simp only [_get_retid, List.cons_append, hs, Bool.false_eq_true, if_false]
    simpa using hloop

/-- C10, at an input: the root record has a member `xs`, a list of 32-bit integers;
`[StructGet xs, ListCount]` gives `i32`. -/
theorem _get_retid_LContains_LCount_witness :
    descend (.mk (.TC_OTHER 0) [.mk "xs" (.mk (.TC_OTHER 1) [] [.mk .TC_I32 [] []]) 0] [])
        [⟨.VC_SGet, "xs", .mk .TC_I32 [] []⟩]
        = some (.mk (.TC_OTHER 1) [] [.mk .TC_I32 [] []])
      ∧ _get_retid (fun _ => false)
          ⟨.mk (.TC_OTHER 0) [.mk "xs" (.mk (.TC_OTHER 1) [] [.mk .TC_I32 [] []]) 0] [],
            [⟨.VC_SGet, "xs", .mk .TC_I32 [] []⟩] ++ ⟨.VC_LCount, "", .mk .TC_I32 [] []⟩ :: []⟩
          = .ok .kI32 :=
  ⟨rfl, _get_retid_LContains_LCount (fun _ => false)
    (.mk (.TC_OTHER 0) [.mk "xs" (.mk (.TC_OTHER 1) [] [.mk .TC_I32 [] []]) 0] [])
    (.mk (.TC_OTHER 1) [] [.mk .TC_I32 [] []])
    [⟨.VC_SGet, "xs", .mk .TC_I32 [] []⟩] ⟨.VC_LCount, "", .mk .TC_I32 [] []⟩ []
    rfl (Or.inr rfl) (by intro h _; rfl)⟩

/-! ## Return-type inference: setters -/

/-- C11 (the code at the claim): with `is_setter` holding exactly of the Set verb kinds and
looking at the verb it is called on, `_get_retid` returns `void` for a chain headed by
`BasicSet`, but not for a `BasicSet` reached after descent: `is_setter` is asked of the head
verb only and the loop has no case for `BasicSet`, so `[StructGet x, BasicSet]` (with `x` a
member of the root type) and `[GenericStructGet, BasicSet]` end in the bare `throw`. -/
theorem _get_retid_BSet_after_descent (is_setter : Verb → Bool) (root : TypeDescriptor)
    (c : TypeCode)
    (T : TypeDescriptor) (k : Nat) (ms : List MemberDescriptor) (es : List TypeDescriptor)
    (n : String) (g1 g2 : TypeDescriptor) (rest : List Verb) :
    _get_retid is_setter_by_code ⟨root, ⟨.VC_BSet, n, g2⟩ :: rest⟩ = .ok .kVoid
      ∧ _get_retid is_setter
          ⟨.mk c (.mk "x" T k :: ms) es, [⟨.VC_SGet, "x", g1⟩, ⟨.VC_BSet, n, g2⟩]⟩
        = (if is_setter ⟨.VC_SGet, "x", g1⟩ then .ok .kVoid else .error .bare_throw)
      ∧ _get_retid is_setter_by_code
          ⟨.mk c (.mk "x" T k :: ms) es, [⟨.VC_SGet, "x", g1⟩, ⟨.VC_BSet, n, g2⟩]⟩
        = .error .bare_throw
      ∧ _get_retid is_setter_by_code ⟨root, [⟨.VC_GSGet, n, g1⟩, ⟨.VC_BSet, n, g2⟩]⟩
        = .error .bare_throw :=
  ⟨rfl, rfl, rfl, rfl⟩

/-! ## Generators and `Dispatch` -/

/-- C12 (the code at the claim): for a member `x` at any byte offset `k`, the `StructGet`
generator emits `add cellPtr, 0` (the source sets `member_offset = 0`, with a `TODO`) and
goes on at the type of the member; for a member at offset 8 the immediate of the emitted
`add` is still 0. -/
theorem SGet_advances_by_zero (next : JitNext) (cc : X86Compiler) (ctx : FuncCtx) (c : TypeCode)
    (T : TypeDescriptor) (k : Nat) (ms : List MemberDescriptor) (es : List TypeDescriptor)
    (g : TypeDescriptor) (rest : List Verb) :
    SGet next cc ctx (some (.mk c (.mk "x" T k :: ms) es)) ⟨.VC_SGet, "x", g⟩
        = next (cc.emit (.add ctx.cellPtr 0)) ctx (some T)
      ∧ Dispatch cc ctx (some (.mk c (.mk "x" T k :: ms) es)) (⟨.VC_SGet, "x", g⟩ :: rest)
        = Dispatch (cc.emit (.add ctx.cellPtr 0)) ctx (some T) rest
      ∧ (Dispatch ⟨[], 1⟩ ⟨0, 1⟩
          (some (.mk (.TC_OTHER 0) [.mk "x" (.mk .TC_I32 [] []) 8] []))
          [⟨.VC_SGet, "x", .mk .TC_I32 [] []⟩, ⟨.VC_BGet, "", .mk .TC_I32 [] []⟩]).cc.log
        = [.add 0 0, .newGpq 1, .mov_load 1 0, .ret_reg 1] :=
  ⟨rfl, rfl, rfl⟩

/-- C13 (the claim fails): `[ListSet]` over a list of 32-bit integers is accepted; the
signature declares three parameters `(ptr, i32, i32)`, and the generator, whose body is
empty, binds no argument. -/
theorem CompileFunctionToNative_LSet_binds_nothing :
    (CompileFunctionToNative ⟨false, false, false, 4096⟩
        ⟨.mk (.TC_OTHER 1) [] [.mk .TC_I32 [] []],
          [⟨.VC_LSet, "", .mk .TC_I32 [] []⟩]⟩).result = .ok 4096
      ∧ declared (CompileFunctionToNative ⟨false, false, false, 4096⟩
        ⟨.mk (.TC_OTHER 1) [] [.mk .TC_I32 [] []],
          [⟨.VC_LSet, "", .mk .TC_I32 [] []⟩]⟩).log
          = [⟨.kIdHost, .kUIntPtr, [.kUIntPtr, .kI32, .kI32]⟩]
      ∧ setArg_count (CompileFunctionToNative ⟨false, false, false, 4096⟩
        ⟨.mk (.TC_OTHER 1) [] [.mk .TC_I32 [] []],
          [⟨.VC_LSet, "", .mk .TC_I32 [] []⟩]⟩).log = 0 :=
  ⟨rfl, rfl, rfl⟩

/-- C13 (amended): for every chain that `CompileFunctionToNative` accepts and whose head verb
is `BasicGet`, `BasicSet` or `ListCount`, one signature is declared and the number of its
parameters is one (the cell pointer) plus the number of argument bindings (`setArg`) the
generators emit. -/
theorem CompileFunctionToNative_args_agree (be : Backend) (root : TypeDescriptor) (v : Verb)
    (rest : List Verb) (p : Nat)
    (hacc : (CompileFunctionToNative be ⟨root, v :: rest⟩).result = .ok p)
    (hv : v.Code = .VC_BGet ∨ v.Code = .VC_BSet ∨ v.Code = .VC_LCount) :
    ∃ sig, declared (CompileFunctionToNative be ⟨root, v :: rest⟩).log = [sig]
      ∧ sig.args.length
          = 1 + setArg_count (CompileFunctionToNative be ⟨root, v :: rest⟩).log := by
  obtain ⟨ie, fe, ae, fp⟩ := be
  obtain ⟨code, n, g⟩ := v
  simp only at hv
  rcases hv with rfl | rfl | rfl <;> cases ie <;> cases fe <;> cases ae <;>
    first
    | exact ⟨_, rfl, rfl⟩
    | exact absurd hacc (by intro h; cases h)

/-- C13 (amended), at an input: `[BasicSet]` over a 32-bit root is accepted, with two
parameters and one binding. -/
theorem CompileFunctionToNative_args_agree_witness :
    (CompileFunctionToNative ⟨false, false, false, 4096⟩
        ⟨.mk .TC_I32 [] [], [⟨.VC_BSet, "", .mk .TC_I32 [] []⟩]⟩).result = .ok 4096
      ∧ ∃ sig, declared (CompileFunctionToNative ⟨false, false, false, 4096⟩
            ⟨.mk .TC_I32 [] [], [⟨.VC_BSet, "", .mk .TC_I32 [] []⟩]⟩).log = [sig]
          ∧ sig.args.length
            = 1 + setArg_count (CompileFunctionToNative ⟨false, false, false, 4096⟩
                ⟨.mk .TC_I32 [] [], [⟨.VC_BSet, "", .mk .TC_I32 [] []⟩]⟩).log :=
  ⟨rfl, CompileFunctionToNative_args_agree ⟨false, false, false, 4096⟩ (.mk .TC_I32 [] [])
    ⟨.VC_BSet, "", .mk .TC_I32 [] []⟩ [] 4096 rfl (Or.inr (Or.inl rfl))⟩

/-- C14 (the claim fails): the generator of `ListCount` has an empty body: `Dispatch` on
`[ListCount]` emits nothing, so what it emits does not end with a return instruction. -/
theorem Dispatch_LCount_emits_nothing :
    s_jitprocs.lookup .VC_LCount = some LCount
      ∧ Dispatch ⟨[], 1⟩ ⟨0, 1⟩ (some (.mk (.TC_OTHER 1) [] [.mk .TC_I32 [] []]))
          [⟨.VC_LCount, "", .mk .TC_I32 [] []⟩] = ⟨⟨[], 1⟩, ⟨0, 1⟩, none⟩
      ∧ (Dispatch ⟨[], 1⟩ ⟨0, 1⟩ (some (.mk (.TC_OTHER 1) [] [.mk .TC_I32 [] []]))
          [⟨.VC_LCount, "", .mk .TC_I32 [] []⟩]).cc.log.getLast? = none :=
  ⟨rfl, rfl, rfl⟩

/-- C14 (amended): of the eight terminal verb kinds, the generators of `BasicGet` and
`BasicSet` emit a sequence that ends with a return instruction, and so does the one of
`StructSet`, when the member is found and also when it is not; the generators of
`GenericStructSet`, `ListSet`, `ListInlineSet`, `ListContains` and `ListCount` emit nothing.
None of the eight calls `Dispatch` on a further verb: what `Dispatch` leaves does not depend
on the verbs after the terminal one. -/
theorem Dispatch_terminal_generators (cc : X86Compiler) (ctx : FuncCtx)
    (type : TypeDescriptor) (n : String)
    (g : TypeDescriptor) (rest : List Verb) :
    Dispatch cc ctx (some type) (⟨.VC_BGet, n, g⟩ :: rest)
        = ⟨⟨cc.log ++ [.newGpq cc.nregs, .mov_load cc.nregs ctx.cellPtr, .ret_reg cc.nregs],
            cc.nregs + 1⟩, ctx, none⟩
      ∧ Dispatch cc ctx (some type) (⟨.VC_BSet, n, g⟩ :: rest)
        = ⟨⟨cc.log ++ [.newGpq cc.nregs, .setArg ctx.argIndex cc.nregs,
              .mov_store ctx.cellPtr cc.nregs, .ret_void], cc.nregs + 1⟩,
            ⟨ctx.cellPtr, ctx.argIndex + 1⟩, none⟩
      ∧ Dispatch cc ctx (some type) (⟨.VC_SSet, n, g⟩ :: rest)
        = ⟨⟨cc.log ++ [.add ctx.cellPtr 0, .ret_void], cc.nregs⟩, ctx, none⟩
      ∧ Dispatch cc ctx (some type) (⟨.VC_GSSet, n, g⟩ :: rest) = ⟨cc, ctx, none⟩
      ∧ Dispatch cc ctx (some type) (⟨.VC_LSet, n, g⟩ :: rest) = ⟨cc, ctx, none⟩
      ∧ Dispatch cc ctx (some type) (⟨.VC_LInlineSet, n, g⟩ :: rest) = ⟨cc, ctx, none⟩
      ∧ Dispatch cc ctx (some type) (⟨.VC_LContains, n, g⟩ :: rest) = ⟨cc, ctx, none⟩
      ∧ Dispatch cc ctx (some type) (⟨.VC_LCount, n, g⟩ :: rest) = ⟨cc, ctx, none⟩ := by
  refine ⟨?_, ?_, ?_, rfl, rfl, rfl, rfl, rfl⟩
  · simp [Dispatch_cons, BGet, X86Compiler.emit, X86Compiler.newGpq]
  · simp [Dispatch_cons, BSet, X86Compiler.emit, X86Compiler.newGpq, FuncCtx.newArg]
  · simp [Dispatch_cons, SSet, X86Compiler.emit]

/-- C15 (the code at the claim): no call `CompileFunctionToNative` makes binds an argument
to register 0, the register `cc.newGpq` hands out for `cellPtr`: the driver emits no
`setArg` between `addFunc` and `Dispatch`, and every `setArg` of a generator binds a
register of its own. On `[BasicGet]` over a 32-bit root the log up to the return is
`code_init, addFunc, newGpq 0, newGpq 1, mov_load 1 0, ret_reg 1`. -/
theorem CompileFunctionToNative_cellPtr_unbound (be : Backend) (fdesc : FunctionDescriptor)
    (i : Nat) (fe ae : Bool) (p : Nat) :
    Call.setArg i 0 ∉ (CompileFunctionToNative be fdesc).log
      ∧ (CompileFunctionToNative ⟨false, fe, ae, p⟩
          ⟨.mk .TC_I32 [] [], [⟨.VC_BGet, "", .mk .TC_I32 [] []⟩]⟩).log.take 6
        = [.code_init, .addFunc ⟨.kIdHost, .kI32, [.kUIntPtr]⟩, .newGpq 0,
            .newGpq 1, .mov_load 1 0, .ret_reg 1] := by
  constructor
  · intro h
    obtain ⟨pargs, h2⟩ := CompileFunctionToNative_setArg be fdesc i 0 h
    rcases Dispatch_setArg_reg _ _ _ _ _ _ h2 with h3 | h3
    · simp at h3
    · simp at h3
  · cases fe <;> cases ae <;> rfl

/-- C17 (the code at the claim): `BGet` and `BSet` do not look at the current type: what they
emit is the same for every type, a `mov` between memory at the cell pointer and a 64-bit
register from `cc.newGpq`, eight bytes wide. On a 32-bit root, whose scalar category is
four bytes wide, `BSet` stores eight bytes and `BGet` loads eight. -/
theorem BGet_BSet_ignore_type (next : JitNext) (cc : X86Compiler) (ctx : FuncCtx)
    (t1 t2 : TypeDescriptor)
    (v : Verb) :
    BGet next cc ctx (some t1) v = BGet next cc ctx (some t2) v
      ∧ BSet next cc ctx (some t1) v = BSet next cc ctx (some t2) v
      ∧ (BSet next ⟨[], 1⟩ ⟨0, 1⟩ (some (.mk .TC_I32 [] [])) v).cc.log
          = [.newGpq 1, .setArg 1 1, .mov_store 0 1, .ret_void]
      ∧ Call.mem_width (.mov_store 0 1) = some 8
      ∧ (BGet next ⟨[], 1⟩ ⟨0, 1⟩ (some (.mk .TC_I32 [] [])) v).cc.log
          = [.newGpq 1, .mov_load 1 0, .ret_reg 1]
      ∧ Call.mem_width (.mov_load 1 0) = some 8
      ∧ (_get_typeid (.mk .TC_I32 [] [])).width = 4 :=
  ⟨rfl, rfl, rfl, rfl, rfl, rfl, rfl⟩

/-! ## Chain bounds and the end of the parameter walk -/

/-- C18 (the code at the claim): parameter-list inference succeeds on `[StructGet x]` (for a
root type with member `x`) and on the empty chain, and on both `Dispatch` reads a verb at
the index equal to the chain length: the `StructGet` generator calls `Dispatch` on `v + 1`
without a bound, and the driver calls `Dispatch` on the first verb of an empty chain. -/
theorem Dispatch_reads_past_chain (cc : X86Compiler) (ctx : FuncCtx) (root : TypeDescriptor)
    (c : TypeCode)
    (T : TypeDescriptor) (k : Nat) (ms : List MemberDescriptor) (es : List TypeDescriptor)
    (g : TypeDescriptor) (fe ae : Bool) (p : Nat) :
    _get_args ⟨.mk c (.mk "x" T k :: ms) es, [⟨.VC_SGet, "x", g⟩]⟩
        = .ok [.kUIntPtr, .kUIntPtr, _get_typeid g]
      ∧ Dispatch cc ctx (some (.mk c (.mk "x" T k :: ms) es)) [⟨.VC_SGet, "x", g⟩]
        = ⟨cc.emit (.add ctx.cellPtr 0), ctx, some .verb_out_of_bounds⟩
      ∧ (CompileFunctionToNative ⟨false, fe, ae, p⟩
          ⟨.mk c (.mk "x" T k :: ms) es, [⟨.VC_SGet, "x", g⟩]⟩).result
        = .error .verb_out_of_bounds
      ∧ _get_args ⟨root, []⟩ = .ok [.kUIntPtr]
      ∧ Dispatch cc ctx (some root) [] = ⟨cc, ctx, some .verb_out_of_bounds⟩
      ∧ (CompileFunctionToNative ⟨false, fe, ae, p⟩ ⟨root, []⟩).result
        = .error .verb_out_of_bounds :=
  ⟨rfl, rfl, rfl, rfl, rfl, rfl⟩

/-- C19: when the parameter walk reaches a `StructSet` or `GenericStructSet` verb (at the
head of the chain, or after continuing verbs whose list verbs each meet a type with an
element type), `_get_args` ends in the bare `throw` and `CompileFunctionToNative` fails
having made no call to the backend but `code.init`: no function is declared and no
generator runs, whatever the root type and the backend. -/
theorem CompileFunctionToNative_SSet_GSSet_rejected (be : Backend) (root t : TypeDescriptor)
    (pre : List Verb) (v : Verb)
    (post : List Verb) (hwalk : continuing_walk root pre = some t)
    (hv : v.Code = .VC_SSet ∨ v.Code = .VC_GSSet) :
    _get_args ⟨root, pre ++ v :: post⟩ = .error .bare_throw
      ∧ (CompileFunctionToNative be ⟨root, pre ++ v :: post⟩).log = [.code_init]
      ∧ (CompileFunctionToNative be ⟨root, pre ++ v :: post⟩).result = .error .bare_throw := by
  have ha : _get_args ⟨root, pre ++ v :: post⟩ = .error .bare_throw := by
    simp only [_get_args]
    rw [_get_args_loop_continuing_run t (v :: post) pre root _ hwalk]
    rcases hv with hv | hv <;> simp only [_get_args_loop, hv]
  refine ⟨ha, ?_⟩
  cases hi : be.init_err with
  | true => rw [CompileFunctionToNative_init_err be _ hi]; exact ⟨rfl, rfl⟩
  | false => rw [CompileFunctionToNative_args_err be _ _ hi ha]; exact ⟨rfl, rfl⟩

/-- C19, at an input: `[StructSet x]` on a record that has the member `x`, with a backend
that reports no error. -/
theorem CompileFunctionToNative_SSet_GSSet_rejected_witness :
    continuing_walk (.mk (.TC_OTHER 0) [.mk "x" (.mk .TC_I32 [] []) 0] []) []
        = some (.mk (.TC_OTHER 0) [.mk "x" (.mk .TC_I32 [] []) 0] [])
      ∧ _get_args ⟨.mk (.TC_OTHER 0) [.mk "x" (.mk .TC_I32 [] []) 0] [],
          [] ++ ⟨.VC_SSet, "x", .mk .TC_I32 [] []⟩ :: []⟩ = .error .bare_throw
      ∧ (CompileFunctionToNative ⟨false, false, false, 4096⟩
          ⟨.mk (.TC_OTHER 0) [.mk "x" (.mk .TC_I32 [] []) 0] [],
            [] ++ ⟨.VC_SSet, "x", .mk .TC_I32 [] []⟩ :: []⟩).log = [.code_init]
      ∧ (CompileFunctionToNative ⟨false, false, false, 4096⟩
          ⟨.mk (.TC_OTHER 0) [.mk "x" (.mk .TC_I32 [] []) 0] [],
            [] ++ ⟨.VC_SSet, "x", .mk .TC_I32 [] []⟩ :: []⟩).result = .error .bare_throw :=
  ⟨rfl, CompileFunctionToNative_SSet_GSSet_rejected ⟨false, false, false, 4096⟩
    (.mk (.TC_OTHER 0) [.mk "x" (.mk .TC_I32 [] []) 0] [])
    (.mk (.TC_OTHER 0) [.mk "x" (.mk .TC_I32 [] []) 0] [])
    [] ⟨.VC_SSet, "x", .mk .TC_I32 [] []⟩ [] rfl (Or.inl rfl)⟩

/-- C20: for every prefix `p` of continuing verbs (`ListGet`, `ListInlineGet`,
`GenericStructGet`), every terminal verb `t` among `BasicGet`, `BasicSet`, `ListSet`,
`ListInlineSet`, `ListContains`, `ListCount`, `StructGet`, and every suffix `s`, `_get_args`
gives on `p ++ [t] ++ s` what it gives on `p ++ [t]`: the same list, or the same failure
of the prefix; no verb of `s` is read. -/
theorem _get_args_stops_at_terminal (root : TypeDescriptor) (p : List Verb) (t : Verb)
    (s : List Verb)
    (hp : ∀ v ∈ p, v.Code = .VC_LGet ∨ v.Code = .VC_LInlineGet ∨ v.Code = .VC_GSGet)
    (ht : t.Code = .VC_BGet ∨ t.Code = .VC_BSet ∨ t.Code = .VC_LSet ∨ t.Code = .VC_LInlineSet
      ∨ t.Code = .VC_LContains ∨ t.Code = .VC_LCount ∨ t.Code = .VC_SGet) :
    _get_args ⟨root, p ++ [t] ++ s⟩ = _get_args ⟨root, p ++ [t]⟩ :=
  _get_args_loop_stops t s ht p root [.kUIntPtr] hp

/-- C20, at an input: over a list of 32-bit integers, `[ListGet, BasicSet, StructSet nope]`
gives what `[ListGet, BasicSet]` gives, the list `[ptr, i32, i32]`, although `StructSet`
alone ends the walk in the bare `throw`. -/
theorem _get_args_stops_at_terminal_witness :
    _get_args ⟨.mk (.TC_OTHER 1) [] [.mk .TC_I32 [] []],
        [⟨.VC_LGet, "", .mk .TC_I32 [] []⟩] ++ [⟨.VC_BSet, "", .mk .TC_I32 [] []⟩]
          ++ [⟨.VC_SSet, "nope", .mk .TC_I32 [] []⟩]⟩
        = _get_args ⟨.mk (.TC_OTHER 1) [] [.mk .TC_I32 [] []],
            [⟨.VC_LGet, "", .mk .TC_I32 [] []⟩] ++ [⟨.VC_BSet, "", .mk .TC_I32 [] []⟩]⟩
      ∧ _get_args ⟨.mk (.TC_OTHER 1) [] [.mk .TC_I32 [] []],
          [⟨.VC_LGet, "", .mk .TC_I32 [] []⟩] ++ [⟨.VC_BSet, "", .mk .TC_I32 [] []⟩]⟩
        = .ok [.kUIntPtr, .kI32, .kI32] :=
  ⟨_get_args_stops_at_terminal (.mk (.TC_OTHER 1) [] [.mk .TC_I32 [] []])
    [⟨.VC_LGet, "", .mk .TC_I32 [] []⟩] ⟨.VC_BSet, "", .mk .TC_I32 [] []⟩
    [⟨.VC_SSet, "nope", .mk .TC_I32 [] []⟩]
    (by intro v hv; simp only [List.mem_singleton] at hv; subst hv; exact Or.inl rfl)
    (Or.inr (Or.inl rfl)), rfl⟩

end GraphEngine.Jit
